import Mathlib

/-!
Shallow embedding of the core of the `perf` micro-benchmark harness
(`perf/__init__.py` and `perf/text_runner.py`) and proofs of the spec's
testable properties about it.

Modelling conventions:
* Python floats are modelled as exact rationals (`ℚ`); `math.sqrt` is the
  real square root, so `stdev`'s final result lives in `ℝ`.
* Python ints are `ℤ` (or `ℕ` where the source value is a loop index that
  is never negative).
* A Python function that can raise is an `Except Err` value; the `Err`
  constructors follow the spec's error taxonomy (`ValueError` in the
  statistics utilities is `InvalidInput`, the `--loops`/CPU-list
  `ValueError`s are `InvalidConfiguration`, the deserialization
  `ValueError`s are `UnsupportedVersion`/`MissingField`, the constructor
  `TypeError` stays `typeError`, a `KeyError` on a missing inner field is
  `keyError`).
-/

namespace Perf

/-- Error taxonomy for the fallible operations of the embedded code. -/
inductive Err : Type where
  | invalidInput : Err
  | invalidConfiguration : Err
  | unsupportedVersion : Err
  | missingField : Err
  | keyError : Err
  | typeError : Err
deriving DecidableEq, Repr

/-- Function `mean(data)` from `perf/__init__.py`: raises `ValueError` (spec:
`InvalidInput`) on an empty list, else returns `float(sum(data)) / len(data)`. -/
def mean (data : List ℚ) : Except Err ℚ :=
  if data.isEmpty then .error .invalidInput
  else .ok (data.sum / data.length)

/-- The variance computed inside `stdev(data)` from `perf/__init__.py`:
`n < 2` raises `ValueError` (spec: `InvalidInput`); otherwise
`c = mean(data)`, `total = sum((x-c)**2)`, `total2 = sum(x-c)`,
`ss = total - total2**2/n`, `variance = ss/(n-1)`. -/
def stdevVariance (data : List ℚ) : Except Err ℚ :=
  let n := data.length
  if n < 2 then .error .invalidInput
  else
    let c := data.sum / n
    let total := (data.map (fun x => (x - c) ^ 2)).sum
    let total2 := (data.map (fun x => x - c)).sum
    let ss := total - total2 ^ 2 / n
    .ok (ss / (n - 1))

/-- Function `stdev(data)` from `perf/__init__.py`: `math.sqrt(variance)`. -/
noncomputable def stdev (data : List ℚ) : Except Err ℝ :=
  (stdevVariance data).map (fun v => Real.sqrt v)

/-!
## Calibration engine

`TextRunner._calibrate_sample_func` from `perf/text_runner.py`:

```
min_dt = self.args.min_time * 0.90
max_dt = self.args.max_time
for index in range(0, 10):
    loops = 10 ** index
    dt = sample_func(loops)
    if dt >= max_dt:
        index = max(index - 1, 0)
        loops = 10 ** index
        break
    if dt >= min_dt:
        break
return loops
```

The loop is embedded as structural recursion on the number of remaining
indices (`rem = 9 - index` at entry); `ℕ` truncated subtraction `index - 1`
is exactly Python's `max(index - 1, 0)`.  The second component of the
result counts the calls to `sample_func` (the trials).
-/

/-- One pass of the calibration `for` loop starting at `index`, with `rem`
indices left after this one. Returns `(loops, trials)`. -/
def calibrateLoop (sampleFunc : ℕ → ℚ) (minDt maxDt : ℚ) :
    (index : ℕ) → (rem : ℕ) → ℕ × ℕ
  | index, rem =>
    let loops := 10 ^ index
    let dt := sampleFunc loops
    if dt ≥ maxDt then (10 ^ (index - 1), 1)
    else if dt ≥ minDt then (loops, 1)
    else
      match rem with
      | 0 => (loops, 1)
      | r + 1 =>
        let p := calibrateLoop sampleFunc minDt maxDt (index + 1) r
        (p.1, p.2 + 1)

/-- Function `_calibrate_sample_func` with configuration `min_time`, `max_time`:
the returned loop count. -/
def calibrate (sampleFunc : ℕ → ℚ) (minTime maxTime : ℚ) : ℕ :=
  (calibrateLoop sampleFunc (minTime * (9 / 10)) maxTime 0 9).1

/-- Number of calibration trials (calls to `sample_func`) performed by
`_calibrate_sample_func`. -/
def calibrateTrials (sampleFunc : ℕ → ℚ) (minTime maxTime : ℚ) : ℕ :=
  (calibrateLoop sampleFunc (minTime * (9 / 10)) maxTime 0 9).2


/-!
## Sampling loop

`TextRunner._range`, `TextRunner._add` and the measurement loop of
`TextRunner._worker` from `perf/text_runner.py`.  The successive return
values of `sample_func(loops)` are modelled by a function `elapsed` of the
call number (the code calls `sample_func` once per item of `_range()`).
-/

/-- The `warmups`/`samples` lists of the `RunResult` a worker populates. -/
structure WorkerState where
  warmups : List ℚ
  samples : List ℚ
deriving DecidableEq, Repr

/-- Method `TextRunner._add`: append the sample to `warmups` or to `samples`
according to `is_warmup` (the verbose printing is I/O only). -/
def addSample (st : WorkerState) (isWarmup : Bool) (sample : ℚ) : WorkerState :=
  if isWarmup then { st with warmups := st.warmups ++ [sample] }
  else { st with samples := st.samples ++ [sample] }

/-- Method `TextRunner._range`: yields `(True, 0..nwarmup-1)` then
`(False, 0..nsample-1)`. -/
def rangeItems (nwarmup nsample : ℕ) : List (Bool × ℕ) :=
  (List.range nwarmup).map (fun w => (true, w)) ++
    (List.range nsample).map (fun r => (false, r))

/-- The per-sample normalization of `_worker`:
`dt = float(dt) / loops`, then `dt /= inner_loops` when `inner_loops`
is not `None`. -/
def normDt (loops : ℤ) (innerLoops : Option ℤ) (dt : ℚ) : ℚ :=
  let d := dt / (loops : ℚ)
  match innerLoops with
  | none => d
  | some il => d / (il : ℚ)

/-- The `for is_warmup, run in self._range()` loop of `_worker`; `i` is
the number of `sample_func` calls already made. -/
def workerLoop (elapsed : ℕ → ℚ) (norm : ℚ → ℚ) :
    List (Bool × ℕ) → ℕ → WorkerState → WorkerState
  | [], _, st => st
  | (w, _) :: rest, i, st =>
    workerLoop elapsed norm rest (i + 1) (addSample st w (norm (elapsed i)))

/-- Method `TextRunner._worker` as staged: `loops < 1` raises `ValueError`
(spec: `InvalidConfiguration`) before any timing; otherwise the very next
statement, `perf.RunResult(loops=loops, inner_loops=self.inner_loops,
metadata=self.metadata)` (text_runner.py line 269), raises `TypeError`,
because the staged `RunResult.__init__` (src/perf/__init__.py line 230)
accepts neither an `inner_loops` nor a `metadata` keyword argument — the
two staged files belong to different versions of the package.  The
sampling loop at lines 277-282 is therefore never reached; it is embedded
separately as `workerSamplingPass`. -/
def worker (elapsed : ℕ → ℚ) (loops : ℤ) (nwarmup nsample : ℕ)
    (innerLoops : Option ℤ) : Except Err WorkerState :=
  if loops < 1 then .error .invalidConfiguration
  else .error .typeError

/-- The sampling loop of `_worker` (text_runner.py lines 277-282,
`for is_warmup, run in self._range(): dt = sample_func(loops);
dt = float(dt) / loops; if inner_loops is not None: dt /= inner_loops;
self._add(...)`) run on the fresh empty `RunResult` state the code
creates it with — the pass the spec describes, which the staged code
never reaches (see `worker`). -/
def workerSamplingPass (elapsed : ℕ → ℚ) (loops : ℤ) (nwarmup nsample : ℕ)
    (innerLoops : Option ℤ) : WorkerState :=
  workerLoop elapsed (normDt loops innerLoops) (rangeItems nwarmup nsample) 0 ⟨[], []⟩

/-!
## Result model and wire format

`RunResult` and `Results` from `perf/__init__.py`.  A serialized result
document is modelled at the level of the parsed JSON value
(`json.dumps`/`json.loads` round-trip is the identity on it); Python's
`json` module keeps ints and floats apart (`json.loads("1")` is an `int`,
`json.loads("1.0")` a `float`), which matters because
`RunResult.__init__` type-checks its arguments with `isinstance`.
-/

/-- A parsed JSON value as produced by Python's `json.loads`. -/
inductive JVal : Type where
  | jnull : JVal
  | jbool : Bool → JVal
  | jint : ℤ → JVal
  | jfloat : ℚ → JVal
  | jstr : String → JVal
  | jarr : List JVal → JVal
  | jobj : List (String × JVal) → JVal

/-- Dictionary lookup, `data.get(key)`: `none` when the key is absent. -/
def jlookup (key : String) : List (String × JVal) → Option JVal
  | [] => none
  | (k, v) :: rest => if k = key then some v else jlookup key rest

/-- The negation of the `version != 1` test of `_from_json`, under Python
equality: the int `1`, the float `1.0` and `True` (a Python `bool` is an
`int`) all equal `1`; `data.get` of an absent key yields `None`, which
does not. -/
def versionIsOne : Option JVal → Bool
  | some (.jint n) => n == 1
  | some (.jfloat q) => q == 1
  | some (.jbool b) => b
  | _ => false

/-- The in-memory `RunResult` of `perf/__init__.py` (the `formatter`
attribute is display-only and not modelled). -/
structure RunResult where
  samples : List ℚ
  warmups : List ℚ
  loops : Option ℤ
deriving DecidableEq, Repr

/-- The `isinstance(value, float) and value >= 0` test that
`RunResult.__init__` applies to each sample/warmup (Python ints and bools
are not floats); failure raises `TypeError`. -/
def checkSampleVal : JVal → Except Err ℚ
  | .jfloat q => if 0 ≤ q then .ok q else .error .typeError
  | _ => .error .typeError

/-- Validation of a whole `samples`/`warmups` argument of
`RunResult.__init__`: it must be a list whose values all pass
`checkSampleVal` (iterating a non-list raises `TypeError`). -/
def checkSampleList : JVal → Except Err (List ℚ)
  | .jarr vs => go vs
  | _ => .error .typeError
where
  go : List JVal → Except Err (List ℚ)
  | [] => .ok []
  | v :: rest => do
    let q ← checkSampleVal v
    let qs ← go rest
    .ok (q :: qs)

/-- The `loops is None or (isinstance(loops, int) and loops >= 0)` test of
`RunResult.__init__` (note: `>= 0`, not `>= 1`); a Python `bool` counts as
an `int`.  `none` models both an absent key and an explicit `None`/`null`. -/
def checkLoops : Option JVal → Except Err (Option ℤ)
  | none => .ok none
  | some .jnull => .ok none
  | some (.jint n) => if 0 ≤ n then .ok (some n) else .error .typeError
  | some (.jbool b) => .ok (some (if b then 1 else 0))
  | some _ => .error .typeError

/-- Constructor `RunResult.__init__` applied to raw (JSON-shaped) arguments: `loops`
is validated first, then `samples`, then `warmups`, exactly as in the
source. -/
def initRunResult (samples warmups : JVal) (loops : Option JVal) :
    Except Err RunResult := do
  let l ← checkLoops loops
  let s ← checkSampleList samples
  let w ← checkSampleList warmups
  .ok ⟨s, w, l⟩

/-- Constructor call `RunResult(samples=..., warmups=..., loops=...)` called from Lean-typed
Python values (lists of floats and an optional int). -/
def mkRunResult (samples warmups : List ℚ) (loops : Option ℤ) :
    Except Err RunResult :=
  initRunResult (.jarr (samples.map .jfloat)) (.jarr (warmups.map .jfloat))
    (loops.map .jint)

/-- Method `RunResult._json()`: the body dict, with keys inserted in source order
and `loops` present only when it is not `None`. -/
def RunResult.jsonBody (rr : RunResult) : JVal :=
  .jobj ([("version", .jint 1),
          ("samples", .jarr (rr.samples.map .jfloat)),
          ("warmups", .jarr (rr.warmups.map .jfloat))] ++
         (match rr.loops with
          | none => []
          | some n => [("loops", .jint n)]))

/-- Method `RunResult.json()`: the serialized document `{"run_result": body}`. -/
def RunResult.jsonDoc (rr : RunResult) : JVal :=
  .jobj [("run_result", rr.jsonBody)]

/-- Method `RunResult._from_json(data)`: `version != 1` raises `ValueError`
(spec: `UnsupportedVersion`); a missing `samples`/`warmups` key raises
`KeyError`; the `loops` key is optional; then `RunResult.__init__`
validates.  A non-dict body raises `AttributeError`/`TypeError`, modelled
as `typeError`. -/
def RunResult.fromJsonBody : JVal → Except Err RunResult
  | .jobj fields =>
    if versionIsOne (jlookup "version" fields) then
      match jlookup "samples" fields with
      | none => .error .keyError
      | some s =>
        match jlookup "warmups" fields with
        | none => .error .keyError
        | some w => initRunResult s w (jlookup "loops" fields)
    else .error .unsupportedVersion
  | _ => .error .typeError

/-- Method `RunResult.from_json(text)` after `json.loads`: a document without the
`run_result` wrapper key raises `ValueError` (spec: `MissingField`); the
model covers object documents (the spec's wire format), any other
document is `typeError`. -/
def RunResult.fromJson : JVal → Except Err RunResult
  | .jobj fields =>
    match jlookup "run_result" fields with
    | some body => RunResult.fromJsonBody body
    | none => .error .missingField
  | _ => .error .typeError

/-- The in-memory `Results` of `perf/__init__.py` (again without the
display-only `formatter`).  `Results.__init__` validates nothing, so
`name` and `metadata` stay raw JSON values. -/
structure Results where
  runs : List RunResult
  name : Option JVal
  metadata : JVal

/-- The list comprehension `[RunResult._from_json(run) for run in
data['runs']]`: the first failing element aborts. -/
def runsFromJson : List JVal → Except Err (List RunResult)
  | [] => .ok []
  | v :: rest => do
    let r ← RunResult.fromJsonBody v
    let rs ← runsFromJson rest
    .ok (r :: rs)

/-- Method `Results._from_json(data)`: version check, then `data['runs']`
(`KeyError` when absent, `TypeError` when not a list), then
`data['metadata']` (`KeyError` when absent), then `data.get('name')`. -/
def Results.fromJsonBody : JVal → Except Err Results
  | .jobj fields =>
    if versionIsOne (jlookup "version" fields) then
      match jlookup "runs" fields with
      | none => .error .keyError
      | some (.jarr rs) => do
        let runs ← runsFromJson rs
        match jlookup "metadata" fields with
        | none => .error .keyError
        | some md => .ok ⟨runs, jlookup "name" fields, md⟩
      | some _ => .error .typeError
    else .error .unsupportedVersion
  | _ => .error .typeError

/-- Method `Results.from_json(text)` after `json.loads`: a document without the
`results` wrapper key raises `ValueError` (spec: `MissingField`). -/
def Results.fromJson : JVal → Except Err Results
  | .jobj fields =>
    match jlookup "results" fields with
    | some body => Results.fromJsonBody body
    | none => .error .missingField
  | _ => .error .typeError

/-- A well-formed Sample on the wire: a JSON float `≥ 0` (the spec's
Sample invariant). -/
def wfSampleVal : JVal → Bool
  | .jfloat q => 0 ≤ q
  | _ => false

/-- A well-formed serialized `run_result` body per the spec's wire format
(§6 and §3): `version` is the int `1`, `samples` and `warmups` are arrays
of non-negative floats, `loops` is an int `≥ 1` or omitted. -/
def wfRunBody : JVal → Bool
  | .jobj fields =>
    (match jlookup "version" fields with
     | some (.jint n) => n == 1
     | _ => false) &&
    (match jlookup "samples" fields with
     | some (.jarr vs) => vs.all wfSampleVal
     | _ => false) &&
    (match jlookup "warmups" fields with
     | some (.jarr vs) => vs.all wfSampleVal
     | _ => false) &&
    (match jlookup "loops" fields with
     | none => true
     | some (.jint n) => 1 ≤ n
     | some _ => false)
  | _ => false

/-- A well-formed serialized `RunResult` document: `{"run_result": body}`
with a well-formed body. -/
def wfRunDoc : JVal → Bool
  | .jobj fields =>
    (match jlookup "run_result" fields with
     | some body => wfRunBody body
     | none => false)
  | _ => false

/-- A well-formed serialized `Results` document body per the spec's wire
format: `version` is the int `1`, `runs` is an array of well-formed run
bodies, `metadata` is present, `name` is a string or omitted. -/
def wfResultsBody : JVal → Bool
  | .jobj fields =>
    (match jlookup "version" fields with
     | some (.jint n) => n == 1
     | _ => false) &&
    (match jlookup "runs" fields with
     | some (.jarr rs) => rs.all wfRunBody
     | _ => false) &&
    (jlookup "metadata" fields).isSome &&
    (match jlookup "name" fields with
     | none => true
     | some (.jstr _) => true
     | some _ => false)
  | _ => false

/-- A well-formed serialized `Results` document: `{"results": body}`. -/
def wfResultsDoc : JVal → Bool
  | .jobj fields =>
    (match jlookup "results" fields with
     | some body => wfResultsBody body
     | none => false)
  | _ => false

/-!
## CPU-list parsing

`_parse_cpu_list` from `perf/text_runner.py`.  String splitting and
`int()` are modelled over `List Char`.
-/

/-- Digit-string accumulator for `parseInt`. -/
def digitsVal : List Char → ℕ → ℕ
  | [], acc => acc
  | c :: rest, acc => digitsVal rest (acc * 10 + (c.toNat - '0'.toNat))

/-- One-or-more ASCII digits, else `ValueError`. -/
def parseDigits (cs : List Char) : Except Err ℕ :=
  if cs.isEmpty then .error .invalidConfiguration
  else if cs.all (fun c => c.isDigit) then .ok (digitsVal cs 0)
  else .error .invalidConfiguration

/-- Modelled subset of Python `int(str)`: an optional sign followed by
digits (Python additionally strips whitespace and allows `_` separators,
which CPU-list strings never contain).  Raises `ValueError`, which
`_parse_cpu_list`'s contract surfaces as `InvalidConfiguration`. -/
def parseInt (cs : List Char) : Except Err ℤ :=
  match cs with
  | '-' :: rest => (parseDigits rest).map (fun n => -(n : ℤ))
  | '+' :: rest => (parseDigits rest).map (fun n => (n : ℤ))
  | _ => (parseDigits cs).map (fun n => (n : ℤ))

/-- Python `s.split(sep)` for a one-character separator: always returns at
least one (possibly empty) piece. -/
def splitOnChar (c : Char) : List Char → List (List Char)
  | [] => [[]]
  | x :: rest =>
    match splitOnChar c rest with
    | [] => [[]]
    | h :: t => if x = c then [] :: h :: t else (x :: h) :: t

/-- Python `part.split('-', 1)`: split at the first `-`, if any. -/
def splitFirst (c : Char) : List Char → Option (List Char × List Char)
  | [] => none
  | x :: rest =>
    if x = c then some ([], rest)
    else (splitFirst c rest).map (fun p => (x :: p.1, p.2))

/-- Python `range(first, last + 1)` over ints: empty when `last < first`. -/
def rangeInts (first last1 : ℤ) : List ℤ :=
  (List.range (last1 - first).toNat).map (fun i => first + i)

/-- One `part` of the comma-separated CPU list: `first-last` extends by
the inclusive range, a bare integer appends itself. -/
def parseCpuPart (part : List Char) : Except Err (List ℤ) :=
  match splitFirst '-' part with
  | some (a, b) => do
    let first ← parseInt a
    let last ← parseInt b
    .ok (rangeInts first (last + 1))
  | none => (parseInt part).map (fun n => [n])

/-- The `for part in cpu_list.split(',')` loop of `_parse_cpu_list`: the
first malformed part aborts. -/
def parseCpuParts : List (List Char) → Except Err (List ℤ)
  | [] => .ok []
  | p :: rest => do
    let xs ← parseCpuPart p
    let ys ← parseCpuParts rest
    .ok (xs ++ ys)

/-- Function `_parse_cpu_list(cpu_list)` from `perf/text_runner.py`. -/
def parseCpuList (cpuList : String) : Except Err (List ℤ) :=
  parseCpuParts (splitOnChar ',' cpuList.toList)

-- DEFS_SENTINEL
/-- The calibration loop performs at most `rem + 1` trials and returns a
power of ten whose exponent is at most `index + rem`. -/
theorem calibrateLoop_bounds (f : ℕ → ℚ) (minDt maxDt : ℚ) :
    ∀ rem index, (calibrateLoop f minDt maxDt index rem).2 ≤ rem + 1 ∧
      ∃ k, k ≤ index + rem ∧ (calibrateLoop f minDt maxDt index rem).1 = 10 ^ k := by
  intro rem
  induction rem with
  | zero =>
    intro index
    rw [calibrateLoop]
    split_ifs with h1 h2
    · exact ⟨le_refl _, index - 1, by omega, rfl⟩
    · exact ⟨le_refl _, index, by omega, rfl⟩
    · exact ⟨le_refl _, index, by omega, rfl⟩
  | succ r ih =>
    intro index
    rw [calibrateLoop]
    split_ifs with h1 h2
    · exact ⟨by omega, index - 1, by omega, rfl⟩
    · exact ⟨by omega, index, by omega, rfl⟩
    · obtain ⟨ht, k, hk, hv⟩ := ih (index + 1)
      dsimp only
      exact ⟨by omega, k, by omega, hv⟩

/-- If every trial strictly before exponent `k` is rejected (elapsed below
both thresholds) and the trial at exponent `k` reaches `maxDt`, the
calibration loop stops there and steps back one power of ten. -/
theorem calibrateLoop_max_hit (f : ℕ → ℚ) (minDt maxDt : ℚ) :
    ∀ rem index k, index ≤ k → k ≤ index + rem →
      (∀ j, index ≤ j → j < k → f (10 ^ j) < maxDt ∧ f (10 ^ j) < minDt) →
      f (10 ^ k) ≥ maxDt →
      calibrateLoop f minDt maxDt index rem = (10 ^ (k - 1), k - index + 1) := by
  intro rem
  induction rem with
  | zero =>
    intro index k hik hkb hrej hmax
    have : k = index := by omega
    subst this
    rw [calibrateLoop]
    simp only [ge_iff_le, hmax, if_pos]
    simp
  | succ r ih =>
    intro index k hik hkb hrej hmax
    rw [calibrateLoop]
    by_cases hk : k = index
    · subst hk
      simp only [ge_iff_le, hmax, if_pos]
      simp
    · have hrd := hrej index (le_refl _) (by omega)
      rw [if_neg (by exact not_le.mpr hrd.1), if_neg (by exact not_le.mpr hrd.2)]
      have := ih (index + 1) k (by omega) (by omega)
        (fun j hj1 hj2 => hrej j (by omega) hj2) hmax
      dsimp only
      rw [this, Prod.mk.injEq]
      exact ⟨rfl, by omega⟩

/-- If every trial strictly before exponent `k` is rejected and the trial
at exponent `k` stays below `maxDt` but reaches `minDt`, the loop accepts
`10 ^ k`. -/
theorem calibrateLoop_accept (f : ℕ → ℚ) (minDt maxDt : ℚ) :
    ∀ rem index k, index ≤ k → k ≤ index + rem →
      (∀ j, index ≤ j → j < k → f (10 ^ j) < maxDt ∧ f (10 ^ j) < minDt) →
      f (10 ^ k) < maxDt → f (10 ^ k) ≥ minDt →
      calibrateLoop f minDt maxDt index rem = (10 ^ k, k - index + 1) := by
  intro rem
  induction rem with
  | zero =>
    intro index k hik hkb hrej hlt hmin
    have : k = index := by omega
    subst this
    rw [calibrateLoop]
    rw [if_neg (by exact not_le.mpr hlt), if_pos hmin]
    simp
  | succ r ih =>
    intro index k hik hkb hrej hlt hmin
    rw [calibrateLoop]
    by_cases hk : k = index
    · subst hk
      rw [if_neg (by exact not_le.mpr hlt), if_pos hmin]
      simp
    · have hrd := hrej index (le_refl _) (by omega)
      rw [if_neg (by exact not_le.mpr hrd.1), if_neg (by exact not_le.mpr hrd.2)]
      have := ih (index + 1) k (by omega) (by omega)
        (fun j hj1 hj2 => hrej j (by omega) hj2) hlt hmin
      dsimp only
      rw [this, Prod.mk.injEq]
      exact ⟨rfl, by omega⟩

/-- C1: with `measure(loops) = loops * 0.001` seconds and `min_time = 0.1`,
`max_time = 1.0`, calibration returns `loops = 100`; moreover a trial whose
elapsed time is exactly `0.9 * min_time` is accepted (the acceptance test
is `elapsed >= 0.9 * min_time`), shown by a measure function that returns
exactly `0.9 * 0.1` on the very first trial, which calibration accepts
immediately (`loops = 1`, one trial). -/
theorem claim_c1_calibration_example :
    calibrate (fun loops => loops * (1 / 1000)) (1 / 10) 1 = 100 ∧
    calibrate (fun _ => (9 / 10) * (1 / 10)) (1 / 10) 1 = 1 ∧
    calibrateTrials (fun _ => (9 / 10) * (1 / 10)) (1 / 10) 1 = 1 := by
  refine ⟨?_, ?_, ?_⟩ <;>
    norm_num [calibrate, calibrateTrials, calibrateLoop]

/-- C3: for every measure function the calibration engine performs at most
10 trials and returns `10 ^ k` for some `k ≤ 9`, hence a loop count `≥ 1`. -/
theorem claim_c3_calibration_terminates (f : ℕ → ℚ) (minTime maxTime : ℚ) :
    calibrateTrials f minTime maxTime ≤ 10 ∧
    (∃ k, k ≤ 9 ∧ calibrate f minTime maxTime = 10 ^ k) ∧
    1 ≤ calibrate f minTime maxTime := by
  obtain ⟨ht, k, hk, hv⟩ := calibrateLoop_bounds f (minTime * (9 / 10)) maxTime 9 0
  refine ⟨ht, ⟨k, by omega, hv⟩, ?_⟩
  show 1 ≤ (calibrateLoop f (minTime * (9 / 10)) maxTime 0 9).1
  rw [hv]
  exact Nat.one_le_pow _ _ (by norm_num)

/-- C4: if the first trial reaching `max_time` happens at `loops = 10 ^ k`
(all earlier trials having been rejected as too short), calibration stops
immediately (after `k + 1` trials) and returns `10 ^ (k - 1)` with `ℕ`
truncated subtraction, i.e. `10 ^ max(k-1, 0)` — without ever confirming
that the smaller loop count lasts at least `min_time`. -/
theorem claim_c4_step_back (f : ℕ → ℚ) (minTime maxTime : ℚ) (k : ℕ)
    (hk : k ≤ 9)
    (hrej : ∀ j, j < k → f (10 ^ j) < maxTime ∧ f (10 ^ j) < minTime * (9 / 10))
    (hmax : f (10 ^ k) ≥ maxTime) :
    calibrate f minTime maxTime = 10 ^ (k - 1) ∧
    calibrateTrials f minTime maxTime = k + 1 := by
  have h := calibrateLoop_max_hit f (minTime * (9 / 10)) maxTime 9 0 k
    (Nat.zero_le _) (by omega) (fun j _ hj2 => hrej j hj2) hmax
  constructor
  · show (calibrateLoop f (minTime * (9 / 10)) maxTime 0 9).1 = _
    rw [h]
  · show (calibrateLoop f (minTime * (9 / 10)) maxTime 0 9).2 = _
    rw [h]
    simp

/-- Witness for C4: the measure function taking 5 seconds from 10 loops on
(and 0 below) first reaches `max_time = 5` at `k = 1`, so calibration
returns `10 ^ 0 = 1` after 2 trials. -/
theorem claim_c4_step_back_witness :
    calibrate (fun loops => if 10 ≤ loops then 5 else 0) 1 5 = 1 ∧
    calibrateTrials (fun loops => if 10 ≤ loops then 5 else 0) 1 5 = 2 := by
  have h := claim_c4_step_back (fun loops => if 10 ≤ loops then 5 else 0) 1 5 1
    (by norm_num)
    (by
      intro j hj
      interval_cases j
      norm_num)
    (by norm_num)
  simpa using h


theorem workerLoop_append (elapsed : ℕ → ℚ) (norm : ℚ → ℚ) :
    ∀ (xs ys : List (Bool × ℕ)) (i : ℕ) (st : WorkerState),
      workerLoop elapsed norm (xs ++ ys) i st =
        workerLoop elapsed norm ys (i + xs.length) (workerLoop elapsed norm xs i st) := by
  intro xs
  induction xs with
  | nil => intro ys i st; simp [workerLoop]
  | cons p rest ih =>
    intro ys i st
    obtain ⟨w, r⟩ := p
    rw [List.cons_append, workerLoop, workerLoop, ih]
    simp only [List.length_cons]
    ring_nf

theorem workerLoop_all_warmup (elapsed : ℕ → ℚ) (norm : ℚ → ℚ) :
    ∀ (xs : List (Bool × ℕ)), (∀ p ∈ xs, p.1 = true) →
      ∀ (i : ℕ) (st : WorkerState),
        workerLoop elapsed norm xs i st =
          ⟨st.warmups ++ (List.range xs.length).map (fun j => norm (elapsed (i + j))),
           st.samples⟩ := by
  intro xs
  induction xs with
  | nil => intro _ i st; simp [workerLoop]
  | cons p rest ih =>
    intro h i st
    obtain ⟨w, r⟩ := p
    have hw : w = true := h (w, r) (by simp)
    subst hw
    rw [workerLoop, ih (fun q hq => h q (List.mem_cons_of_mem _ hq)) (i + 1)]
    simp only [addSample, if_pos]
    simp only [List.length_cons, List.range_succ_eq_map, List.map_cons, List.map_map]
    rw [List.append_assoc, List.singleton_append]
    have hmap : List.map ((fun j => norm (elapsed (i + j))) ∘ Nat.succ) (List.range rest.length) =
        List.map (fun j => norm (elapsed (i + 1 + j))) (List.range rest.length) :=
      List.map_congr_left (fun j _ => by
        simp only [Function.comp_apply]
        have hij : i + Nat.succ j = i + 1 + j := by omega
        rw [hij])
    rw [hmap]
    simp

theorem workerLoop_all_sample (elapsed : ℕ → ℚ) (norm : ℚ → ℚ) :
    ∀ (xs : List (Bool × ℕ)), (∀ p ∈ xs, p.1 = false) →
      ∀ (i : ℕ) (st : WorkerState),
        workerLoop elapsed norm xs i st =
          ⟨st.warmups,
           st.samples ++ (List.range xs.length).map (fun j => norm (elapsed (i + j)))⟩ := by
  intro xs
  induction xs with
  | nil => intro _ i st; simp [workerLoop]
  | cons p rest ih =>
    intro h i st
    obtain ⟨w, r⟩ := p
    have hw : w = false := h (w, r) (by simp)
    subst hw
    rw [workerLoop, ih (fun q hq => h q (List.mem_cons_of_mem _ hq)) (i + 1)]
    simp only [addSample, Bool.false_eq_true, if_neg, not_false_iff]
    simp only [List.length_cons, List.range_succ_eq_map, List.map_cons, List.map_map]
    rw [List.append_assoc, List.singleton_append]
    have hmap : List.map ((fun j => norm (elapsed (i + j))) ∘ Nat.succ) (List.range rest.length) =
        List.map (fun j => norm (elapsed (i + 1 + j))) (List.range rest.length) :=
      List.map_congr_left (fun j _ => by
        simp only [Function.comp_apply]
        have hij : i + Nat.succ j = i + 1 + j := by omega
        rw [hij])
    rw [hmap]
    simp

/-- C2 (code bug in the staged source): for every `loops ≥ 1` the worker
raises `TypeError` at the `perf.RunResult(loops=..., inner_loops=...,
metadata=...)` call (text_runner.py line 269) — the staged
`RunResult.__init__` accepts no such keyword arguments — so the sampling
loop never runs and nothing is ever appended to `warmups` or `samples`,
contrary to the claim.  The sampling loop itself (lines 277-282, embedded
as `workerSamplingPass`) does produce exactly what the claim describes:
`nwarmup` warmup entries followed by `nsample` sample entries, in call
order, each equal to the elapsed time of the corresponding `sample_func`
call divided by `loops` (and further by `inner_loops` when set). -/
theorem claim_c2_worker_sampling (elapsed : ℕ → ℚ) (loops : ℤ)
    (nwarmup nsample : ℕ) (innerLoops : Option ℤ) (h : 1 ≤ loops) :
    worker elapsed loops nwarmup nsample innerLoops = .error .typeError ∧
    workerSamplingPass elapsed loops nwarmup nsample innerLoops =
      ⟨(List.range nwarmup).map (fun i => normDt loops innerLoops (elapsed i)),
       (List.range nsample).map
         (fun i => normDt loops innerLoops (elapsed (nwarmup + i)))⟩ := by
  constructor
  · rw [worker, if_neg (by omega)]
  · rw [workerSamplingPass, rangeItems, workerLoop_append]
    rw [workerLoop_all_warmup _ _ _ (by simp) 0 ⟨[], []⟩]
    rw [workerLoop_all_sample _ _ _ (by simp)]
    simp

/-- Witness for C2: `nwarmup = 2`, `nsample = 3`, `loops = 4`,
`inner_loops = 2`, elapsed times `1, 2, 3, 4, 5`: the worker errors out,
and the (unreached) sampling loop would have produced these lists. -/
theorem claim_c2_worker_sampling_witness :
    worker (fun i => (i : ℚ) + 1) 4 2 3 (some 2) = .error .typeError ∧
    workerSamplingPass (fun i => (i : ℚ) + 1) 4 2 3 (some 2) =
      ⟨[1 / 8, 1 / 4], [3 / 8, 1 / 2, 5 / 8]⟩ := by
  have h := claim_c2_worker_sampling (fun i => (i : ℚ) + 1) 4 2 3 (some 2)
    (by norm_num)
  refine ⟨h.1, ?_⟩
  rw [h.2]
  norm_num [normDt, List.range_succ]

/-- Serialized sample lists of non-negative floats pass the
constructor validation and come back unchanged. -/
theorem checkSampleList_map_jfloat (qs : List ℚ) (h : ∀ q ∈ qs, 0 ≤ q) :
    checkSampleList (.jarr (qs.map .jfloat)) = .ok qs := by
  rw [checkSampleList]
  induction qs with
  | nil => rfl
  | cons q rest ih =>
    rw [List.map_cons, checkSampleList.go, checkSampleVal]
    rw [if_pos (h q (List.mem_cons_self _ _))]
    rw [ih (fun x hx => h x (List.mem_cons_of_mem _ hx))]
    rfl

/-- C5: serializing any valid `RunResult` (samples and warmups
non-negative, `loops` unset or `>= 0`) to its JSON document and
deserializing that document yields a `RunResult` equal field-for-field to
the original. -/
theorem claim_c5_roundtrip (rr : RunResult)
    (hs : ∀ q ∈ rr.samples, 0 ≤ q) (hw : ∀ q ∈ rr.warmups, 0 ≤ q)
    (hl : ∀ n, rr.loops = some n → 0 ≤ n) :
    RunResult.fromJson rr.jsonDoc = .ok rr := by
  obtain ⟨s, w, l⟩ := rr
  simp only at hs hw hl
  cases l with
  | none =>
    simp [RunResult.jsonDoc, RunResult.jsonBody, RunResult.fromJson,
      RunResult.fromJsonBody, initRunResult, jlookup, versionIsOne, checkLoops,
      checkSampleList_map_jfloat s hs, checkSampleList_map_jfloat w hw]
    rfl
  | some n =>
    simp [RunResult.jsonDoc, RunResult.jsonBody, RunResult.fromJson,
      RunResult.fromJsonBody, initRunResult, jlookup, versionIsOne, checkLoops,
      checkSampleList_map_jfloat s hs, checkSampleList_map_jfloat w hw, hl n rfl]
    rfl
/-- Witness for C5 at the spec's example `loops=1000`, `warmups=[0.01]`,
`samples=[0.009, 0.011]`. -/
theorem claim_c5_roundtrip_witness :
    RunResult.fromJson
        (RunResult.jsonDoc ⟨[9 / 1000, 11 / 1000], [1 / 100], some 1000⟩) =
      .ok ⟨[9 / 1000, 11 / 1000], [1 / 100], some 1000⟩ := by
  exact claim_c5_roundtrip ⟨[9 / 1000, 11 / 1000], [1 / 100], some 1000⟩
    (by intro q hq; simp at hq; rcases hq with rfl | rfl <;> norm_num)
    (by intro q hq; simp at hq; subst hq; norm_num)
    (by intro n hn; simp at hn; omega)

/-- A well-formed wire Sample passes the constructor's per-value check. -/
theorem checkSampleVal_of_wf (v : JVal) (h : wfSampleVal v = true) :
    ∃ q, checkSampleVal v = .ok q := by
  cases v <;> simp [wfSampleVal] at h
  next q => exact ⟨q, by simp [checkSampleVal, h]⟩
/-- A list of well-formed wire Samples passes the constructor's check. -/
theorem checkSampleList_go_of_wf (vs : List JVal)
    (h : ∀ v ∈ vs, wfSampleVal v = true) :
    ∃ qs, checkSampleList.go vs = .ok qs := by
  induction vs with
  | nil => exact ⟨[], rfl⟩
  | cons v rest ih =>
    obtain ⟨q, hq⟩ := checkSampleVal_of_wf v (h v (List.mem_cons_self _ _))
    obtain ⟨qs, hqs⟩ := ih (fun x hx => h x (List.mem_cons_of_mem _ hx))
    refine ⟨q :: qs, ?_⟩
    rw [checkSampleList.go, hq, hqs]
    rfl

/-- Deserializing a well-formed `run_result` body succeeds. -/
theorem fromJsonBody_ok_of_wf (body : JVal) (h : wfRunBody body = true) :
    ∃ rr, RunResult.fromJsonBody body = .ok rr := by
  cases body with
  | jobj fields =>
    rw [wfRunBody] at h
    simp only [Bool.and_eq_true] at h
    obtain ⟨⟨⟨hv, hsamp⟩, hwarm⟩, hloops⟩ := h
    rw [RunResult.fromJsonBody]
    have hv1 : versionIsOne (jlookup "version" fields) = true := by
      cases hvv : jlookup "version" fields with
      | none => rw [hvv] at hv; simp at hv
      | some v =>
        rw [hvv] at hv
        cases v <;> simp_all [versionIsOne]
    rw [if_pos hv1]
    cases hsv : jlookup "samples" fields with
    | none => rw [hsv] at hsamp; simp at hsamp
    | some sv =>
      rw [hsv] at hsamp
      cases sv <;> simp at hsamp
      next svs =>
        cases hwv : jlookup "warmups" fields with
        | none => rw [hwv] at hwarm; simp at hwarm
        | some wv =>
          rw [hwv] at hwarm
          cases wv <;> simp at hwarm
          next wvs =>
            simp only [initRunResult]
            obtain ⟨lo, hlo⟩ : ∃ lo, checkLoops (jlookup "loops" fields) = .ok lo := by
              cases hlv : jlookup "loops" fields with
              | none => exact ⟨none, rfl⟩
              | some lv =>
                rw [hlv] at hloops
                cases lv <;> simp at hloops
                next n =>
                  exact ⟨some n, by rw [checkLoops, if_pos (by omega)]⟩
            obtain ⟨qs, hqs⟩ := checkSampleList_go_of_wf svs hsamp
            obtain ⟨ws, hws⟩ := checkSampleList_go_of_wf wvs hwarm
            refine ⟨⟨qs, ws, lo⟩, ?_⟩
            simp only [checkSampleList, hlo, hqs, hws]
            rfl
  | jnull => simp [wfRunBody] at h
  | jbool b => simp [wfRunBody] at h
  | jint n => simp [wfRunBody] at h
  | jfloat q => simp [wfRunBody] at h
  | jstr s => simp [wfRunBody] at h
  | jarr vs => simp [wfRunBody] at h
/-- Deserializing a list of well-formed run bodies succeeds. -/
theorem runsFromJson_ok_of_wf (rs : List JVal) (h : ∀ v ∈ rs, wfRunBody v = true) :
    ∃ runs, runsFromJson rs = .ok runs := by
  induction rs with
  | nil => exact ⟨[], rfl⟩
  | cons v rest ih =>
    obtain ⟨rr, hrr⟩ := fromJsonBody_ok_of_wf v (h v (List.mem_cons_self _ _))
    obtain ⟨runs, hruns⟩ := ih (fun x hx => h x (List.mem_cons_of_mem _ hx))
    refine ⟨rr :: runs, ?_⟩
    rw [runsFromJson, hrr, hruns]
    rfl

/-- Deserializing a well-formed `results` body succeeds. -/
theorem resultsFromJsonBody_ok_of_wf (body : JVal) (h : wfResultsBody body = true) :
    ∃ res, Results.fromJsonBody body = .ok res := by
  cases body with
  | jobj fields =>
    rw [wfResultsBody] at h
    simp only [Bool.and_eq_true] at h
    obtain ⟨⟨⟨hv, hruns⟩, hmd⟩, hname⟩ := h
    rw [Results.fromJsonBody]
    have hv1 : versionIsOne (jlookup "version" fields) = true := by
      cases hvv : jlookup "version" fields with
      | none => rw [hvv] at hv; simp at hv
      | some v =>
        rw [hvv] at hv
        cases v <;> simp_all [versionIsOne]
    rw [if_pos hv1]
    cases hrv : jlookup "runs" fields with
    | none => rw [hrv] at hruns; simp at hruns
    | some rv =>
      rw [hrv] at hruns
      cases rv <;> simp at hruns
      next rvs =>
        obtain ⟨runs, hr⟩ := runsFromJson_ok_of_wf rvs hruns
        cases hmv : jlookup "metadata" fields with
        | none => rw [hmv] at hmd; simp at hmd
        | some md =>
          refine ⟨⟨runs, jlookup "name" fields, md⟩, ?_⟩
          simp only [hr, hmv]
          rfl
  | jnull => simp [wfResultsBody] at h
  | jbool b => simp [wfResultsBody] at h
  | jint n => simp [wfResultsBody] at h
  | jfloat q => simp [wfResultsBody] at h
  | jstr s => simp [wfResultsBody] at h
  | jarr vs => simp [wfResultsBody] at h
/-- C6: deserialization of an (object) result document fails with
`MissingField` when the top-level wrapper key (`run_result` for a
`RunResult` document, `results` for a `Results` document) is absent, fails
with `UnsupportedVersion` when the wrapper is present but the body's
`version` field is not (Python-) equal to `1`, and succeeds on every
well-formed document of the spec's wire format. -/
theorem claim_c6_deserialization_errors :
    (∀ fields, jlookup "run_result" fields = none →
      RunResult.fromJson (.jobj fields) = .error .missingField) ∧
    (∀ fields, jlookup "results" fields = none →
      Results.fromJson (.jobj fields) = .error .missingField) ∧
    (∀ fields bfields, jlookup "run_result" fields = some (.jobj bfields) →
      versionIsOne (jlookup "version" bfields) = false →
      RunResult.fromJson (.jobj fields) = .error .unsupportedVersion) ∧
    (∀ fields bfields, jlookup "results" fields = some (.jobj bfields) →
      versionIsOne (jlookup "version" bfields) = false →
      Results.fromJson (.jobj fields) = .error .unsupportedVersion) ∧
    (∀ doc, wfRunDoc doc = true → ∃ rr, RunResult.fromJson doc = .ok rr) ∧
    (∀ doc, wfResultsDoc doc = true → ∃ res, Results.fromJson doc = .ok res) := by
  refine ⟨?_, ?_, ?_, ?_, ?_, ?_⟩
  · intro fields hnone
    rw [RunResult.fromJson, hnone]
  · intro fields hnone
    rw [Results.fromJson, hnone]
  · intro fields bfields hsome hver
    simp only [RunResult.fromJson, hsome, RunResult.fromJsonBody]
    rw [if_neg (by simp [hver])]
  · intro fields bfields hsome hver
    simp only [Results.fromJson, hsome, Results.fromJsonBody]
    rw [if_neg (by simp [hver])]
  · intro doc hwf
    cases doc <;> simp [wfRunDoc] at hwf
    next fields =>
      cases hl : jlookup "run_result" fields with
      | none => rw [hl] at hwf; simp at hwf
      | some body =>
        rw [hl] at hwf
        simp at hwf
        obtain ⟨rr, hrr⟩ := fromJsonBody_ok_of_wf body hwf
        refine ⟨rr, ?_⟩
        simp only [RunResult.fromJson, hl]
        exact hrr
  · intro doc hwf
    cases doc <;> simp [wfResultsDoc] at hwf
    next fields =>
      cases hl : jlookup "results" fields with
      | none => rw [hl] at hwf; simp at hwf
      | some body =>
        rw [hl] at hwf
        simp at hwf
        obtain ⟨res, hres⟩ := resultsFromJsonBody_ok_of_wf body hwf
        refine ⟨res, ?_⟩
        simp only [Results.fromJson, hl]
        exact hres
/-- Witness for C6: concrete documents exercising all six cases. -/
theorem claim_c6_deserialization_errors_witness :
    RunResult.fromJson (.jobj [("foo", .jint 1)]) = .error .missingField ∧
    Results.fromJson (.jobj []) = .error .missingField ∧
    RunResult.fromJson (.jobj [("run_result", .jobj [("version", .jint 2)])]) =
      .error .unsupportedVersion ∧
    Results.fromJson (.jobj [("results", .jobj [("version", .jnull)])]) =
      .error .unsupportedVersion ∧
    (∃ rr, RunResult.fromJson (.jobj [("run_result", .jobj
      [("version", .jint 1), ("samples", .jarr [.jfloat (1 / 100)]),
       ("warmups", .jarr []), ("loops", .jint 5)])]) = .ok rr) ∧
    (∃ res, Results.fromJson (.jobj [("results", .jobj
      [("version", .jint 1),
       ("runs", .jarr [.jobj [("version", .jint 1), ("samples", .jarr [.jfloat 2]),
                              ("warmups", .jarr [])]]),
       ("metadata", .jobj [("cpu", .jstr "x")]),
       ("name", .jstr "bench")])]) = .ok res) := by
  obtain ⟨h1, h2, h3, h4, h5, h6⟩ := claim_c6_deserialization_errors
  exact ⟨h1 _ rfl, h2 _ rfl, h3 _ _ rfl rfl, h4 _ _ rfl rfl,
    h5 _ (by simp [wfRunDoc, wfRunBody, jlookup, wfSampleVal]),
    h6 _ (by simp [wfResultsDoc, wfResultsBody, wfRunBody, jlookup, wfSampleVal])⟩
/-- Bind of a successful result steps to the continuation. -/
theorem except_ok_bind {α β : Type} (x : α) (f : α → Except Err β) :
    ((Except.ok x : Except Err α) >>= f) = f x := rfl

/-- Bind of a raised error short-circuits. -/
theorem except_error_bind {α β : Type} (e : Err) (f : α → Except Err β) :
    ((Except.error e : Except Err α) >>= f) = .error e := rfl

/-- Sum of deviations from a constant. -/
theorem sum_map_sub_const (data : List ℚ) (c : ℚ) :
    (data.map (fun x => x - c)).sum = data.sum - data.length * c := by
  induction data with
  | nil => simp
  | cons x rest ih =>
    simp [ih]
    ring

/-- C8: for every non-empty sequence `mean` returns the exact arithmetic
average (the model computes with exact rationals, so the floating-point
tolerance is zero), and `mean` of the empty sequence fails with
`InvalidInput`. -/
theorem claim_c8_mean_average (data : List ℚ) (h : data ≠ []) :
    mean data = .ok (data.sum / data.length) ∧
    mean [] = .error .invalidInput := by
  constructor
  · rw [mean, if_neg (by simpa using h)]
  · rfl

/-- Witness for C8 at the two-element list `[1.0, 2.0]`. -/
theorem claim_c8_mean_average_witness :
    mean [(1 : ℚ), 2] = .ok (3 / 2) ∧ mean [] = .error .invalidInput := by
  have h := claim_c8_mean_average [(1 : ℚ), 2] (by simp)
  refine ⟨?_, h.2⟩
  rw [h.1]
  norm_num

/-- C7: `stdev` fails with `InvalidInput` for fewer than two samples (in
particular on `[2.0]`, covered by the witness); for `n >= 2` its variance
is exactly the Bessel-corrected `sum((x - mean)^2) / (n - 1)` (the
corrected-sum-of-squares term `total2` vanishes in exact arithmetic); and
`stdev([1.0, 3.0])` returns `sqrt 2 = 1.4142...`, within `1e-9` of
`1.4142135623730951`. -/
theorem claim_c7_stdev_bessel :
    (∀ data : List ℚ, data.length < 2 → stdev data = .error .invalidInput) ∧
    (∀ data : List ℚ, 2 ≤ data.length →
      stdevVariance data = .ok
        ((data.map (fun x => (x - data.sum / data.length) ^ 2)).sum /
          (data.length - 1))) ∧
    stdev [1, 3] = .ok (Real.sqrt 2) ∧
    |Real.sqrt 2 - 1.4142135623730951| ≤ 1 / 10 ^ 9 := by
  have hvar : ∀ data : List ℚ, 2 ≤ data.length →
      stdevVariance data = .ok
        ((data.map (fun x => (x - data.sum / data.length) ^ 2)).sum /
          (data.length - 1)) := by
    intro data h2
    rw [stdevVariance]
    dsimp only
    rw [if_neg (by omega)]
    have hn : (data.length : ℚ) ≠ 0 := by
      have : 0 < data.length := by omega
      positivity
    rw [sum_map_sub_const]
    rw [mul_div_cancel₀ _ hn]
    norm_num
  refine ⟨?_, hvar, ?_, ?_⟩
  · intro data hlt
    rw [stdev, stdevVariance]
    rw [if_pos hlt]
    rfl
  · have h2 : stdevVariance [(1 : ℚ), 3] = .ok 2 := by
      rw [hvar [(1 : ℚ), 3] (by norm_num)]
      norm_num
    rw [stdev, h2]
    simp [Except.map]
  · have hub : Real.sqrt 2 ≤ 1.4142135623730951 := by
      rw [Real.sqrt_le_iff]
      norm_num
    have hlb : (1.4142135623730951 : ℝ) - 1 / 10 ^ 9 ≤ Real.sqrt 2 := by
      rw [Real.le_sqrt (by norm_num) (by norm_num)]
      norm_num
    rw [abs_le]
    constructor <;> linarith

/-- Witness for C7: `stdev` on `[2.0]` fails; the variance of
`[1.0, 3.0]` is `2`. -/
theorem claim_c7_stdev_bessel_witness :
    stdev [(2 : ℚ)] = .error .invalidInput ∧
    stdevVariance [(1 : ℚ), 3] = .ok 2 := by
  refine ⟨claim_c7_stdev_bessel.1 [(2 : ℚ)] (by norm_num), ?_⟩
  have h := claim_c7_stdev_bessel.2.1 [(1 : ℚ), 3] (by norm_num)
  rw [h]
  norm_num
/-- C9: CPU-list parsing maps `"0-2,4"` to `{0, 1, 2, 4}` (as the list
`[0, 1, 2, 4]`); the reversed range `"4-2"` yields the empty set (Python's
`range(4, 3)` is empty) — the fixed policy is the empty set, not an
error; malformed syntax fails with `InvalidConfiguration`. -/
theorem claim_c9_cpu_list_parsing :
    parseCpuList "0-2,4" = .ok [0, 1, 2, 4] ∧
    parseCpuList "4-2" = .ok [] ∧
    parseCpuList "1,2x" = .error .invalidConfiguration ∧
    parseCpuList "3-x" = .error .invalidConfiguration := by
  refine ⟨?_, ?_, ?_, ?_⟩ <;> rfl

/-- Counterexample to C10 as stated: `RunResult.__init__` accepts
`loops = 0` (its check is `loops >= 0`, and its own error message says
"loops must be an int >= 0 or None"), so a `RunResult` with `loops = 0` —
neither unset nor `>= 1` — is successfully constructed. -/
theorem claim_c10_loops_zero_counterexample :
    mkRunResult [] [] (some 0) = .ok ⟨[], [], some 0⟩ ∧
    ¬ ((some (0 : ℤ) = none) ∨ ∃ n : ℤ, some (0 : ℤ) = some n ∧ 1 ≤ n) := by
  constructor
  · rfl
  · simp

/-- C10 (amended): for every successfully constructed `RunResult`, its
`loops` field is either unset (`None`) or an integer `>= 0`; construction
with a negative `loops` fails with `TypeError`. -/
theorem claim_c10_loops_invariant_amended (samples warmups : List ℚ)
    (loops : Option ℤ) :
    (∀ rr, mkRunResult samples warmups loops = .ok rr →
      rr.loops = none ∨ ∃ n, rr.loops = some n ∧ 0 ≤ n) ∧
    (∀ n : ℤ, n < 0 →
      mkRunResult samples warmups (some n) = .error .typeError) := by
  constructor
  · intro rr hok
    rw [mkRunResult, initRunResult] at hok
    cases loops with
    | none =>
      simp only [Option.map_none', checkLoops, except_ok_bind] at hok
      cases hs : checkSampleList (JVal.jarr (samples.map .jfloat)) with
      | error e => rw [hs, except_error_bind] at hok; simp at hok
      | ok s =>
        rw [hs, except_ok_bind] at hok
        cases hw : checkSampleList (JVal.jarr (warmups.map .jfloat)) with
        | error e => rw [hw, except_error_bind] at hok; simp at hok
        | ok w =>
          rw [hw, except_ok_bind] at hok
          simp at hok
          left
          rw [← hok]
    | some m =>
      simp only [Option.map_some', checkLoops] at hok
      by_cases hm : 0 ≤ m
      · rw [if_pos hm, except_ok_bind] at hok
        cases hs : checkSampleList (JVal.jarr (samples.map .jfloat)) with
        | error e => rw [hs, except_error_bind] at hok; simp at hok
        | ok s =>
          rw [hs, except_ok_bind] at hok
          cases hw : checkSampleList (JVal.jarr (warmups.map .jfloat)) with
          | error e => rw [hw, except_error_bind] at hok; simp at hok
          | ok w =>
            rw [hw, except_ok_bind] at hok
            simp at hok
            right
            exact ⟨m, by rw [← hok], hm⟩
      · rw [if_neg hm, except_error_bind] at hok
        simp at hok
  · intro n hn
    rw [mkRunResult, initRunResult]
    simp only [Option.map_some', checkLoops]
    rw [if_neg (by omega), except_error_bind]

/-- Witness for C10 (amended) at `loops = 5` and `loops = -1`. -/
theorem claim_c10_loops_invariant_amended_witness :
    ((⟨[], [], some 5⟩ : RunResult).loops = none ∨
      ∃ n, (⟨[], [], some 5⟩ : RunResult).loops = some n ∧ 0 ≤ n) ∧
    mkRunResult [] [] (some (-1)) = .error .typeError := by
  refine ⟨(claim_c10_loops_invariant_amended [] [] (some 5)).1 ⟨[], [], some 5⟩ rfl,
    (claim_c10_loops_invariant_amended [] [] none).2 (-1) (by norm_num)⟩


end Perf
